import Mathlib

/-!
Verification of the TradeSense backend core (server/server.js): TTL cache,
per-ticker rate limiter, price-series providers, Groq model resolution and
completion client, and the RSS news aggregator, shallowly embedded as
executable Lean definitions translated from the JavaScript source.
Epoch times and JS numbers are modelled as `Int` (milliseconds); a JS number
that may be non-finite (NaN/Infinity) is modelled as `Option Int` with `none`
standing for the non-finite case.
-/

/-- ASCII lower-casing, the effect of JS `String.prototype.toLowerCase` on the
ASCII strings handled here. -/
def jsToLower (s : String) : String := ⟨s.data.map Char.toLower⟩

/-- ASCII upper-casing, the effect of JS `String.prototype.toUpperCase` on the
ASCII strings handled here. -/
def jsToUpper (s : String) : String := ⟨s.data.map Char.toUpper⟩

/-- Whitespace as trimmed by JS `String.prototype.trim` (ASCII fragment). -/
def wsChar (c : Char) : Bool := c = ' ' || c = '\t' || c = '\n' || c = '\r'

/-- JS `String.prototype.trim`: strip leading and trailing whitespace. -/
def jsTrim (s : String) : String :=
  ⟨((s.data.dropWhile wsChar).reverse.dropWhile wsChar).reverse⟩

/-- `chListPre q s` holds when `q` is a leading segment of `s`. -/
def chListPre : List Char → List Char → Bool
  | [], _ => true
  | _ :: _, [] => false
  | a :: as, b :: bs => a = b && chListPre as bs

/-- `chContains q s`: `q` occurs as a contiguous run inside `s`. -/
def chContains (q : List Char) : List Char → Bool
  | [] => chListPre q []
  | c :: rest => chListPre q (c :: rest) || chContains q rest

/-- JS `String.prototype.includes`. -/
def strContains (s q : String) : Bool := chContains q.data s.data

/-- JS `a || b` on strings: the empty string is falsy. -/
def jsOrS (a b : String) : String := if a = "" then b else a

/-- JS `String.prototype.slice(0, n)` for nonnegative `n`. -/
def strTake (n : Nat) (s : String) : String := ⟨s.data.take n⟩

/-- JS `| 0`: coercion to a signed 32-bit integer by wrapping. -/
def int32 (n : Int) : Int := (n + 2 ^ 31) % 2 ^ 32 - 2 ^ 31

/-- First-occurrence lookup in an association list (JS `Map.prototype.get`). -/
def alookup {α : Type} : List (String × α) → String → Option α
  | [], _ => none
  | (k, v) :: rest, key => if k = key then some v else alookup rest key

/-- Remove a key (JS `Map.prototype.delete`); the maps built here carry each
key at most once, so filtering is the deletion of that one entry. -/
def aerase {α : Type} (m : List (String × α)) (key : String) : List (String × α) :=
  m.filter (fun e => e.1 ≠ key)

/-- Insert-or-replace (JS `Map.prototype.set`); lookup semantics are
preserved by re-inserting at the front. -/
def aset {α : Type} (m : List (String × α)) (key : String) (v : α) : List (String × α) :=
  (key, v) :: aerase m key

/-- The backing store of `seriesCache` / `newsCache`: key → (expires, data). -/
abbrev CacheMap (α : Type) : Type := List (String × (Int × α))

/-- `cacheGet` (and the identical `newsCacheGet`): absent on a missing key;
an entry whose expiry has passed is deleted and reported absent; otherwise
the stored datum is returned. Returns the possibly-shrunk map as well. -/
def cacheGet {α : Type} (c : CacheMap α) (now : Int) (k : String) :
    Option α × CacheMap α :=
  match alookup c k with
  | none => (none, c)
  | some (exp, v) => if now > exp then (none, aerase c k) else (some v, c)

/-- `cacheSet` (and `newsCacheSet`): store with expiry `now + ttl*1000`
(`ttl` in seconds). -/
def cacheSet {α : Type} (c : CacheMap α) (now : Int) (k : String) (v : α)
    (ttl : Int) : CacheMap α :=
  aset c k (now + ttl * 1000, v)

/-- One pass of the `rateLimitMs(ms)` middleware for the already-uppercased
ticker `tkr` at clock `now`, over the `lastHit` map: a non-empty ticker seen
again within `ms` milliseconds is rejected (map untouched); otherwise the
request proceeds and `lastHit` records `now`. -/
def rateLimitStep (lh : List (String × Int)) (ms : Int) (tkr : String)
    (now : Int) : Bool × List (String × Int) :=
  if tkr ≠ "" && now - (alookup lh tkr).getD 0 < ms then (false, lh)
  else (true, aset lh tkr now)

/-- `[A-Z]`. -/
def isUpperAZ (c : Char) : Bool := 'A' ≤ c && c ≤ 'Z'

/-- `[A-Z0-9.\-]`. -/
def isTickTail (c : Char) : Bool :=
  isUpperAZ c || ('0' ≤ c && c ≤ '9') || c = '.' || c = '-'

/-- `TICKER_RE = /^[A-Z][A-Z0-9.\-]{0,9}$/`. -/
def tickerRe (s : String) : Bool :=
  match s.data with
  | [] => false
  | c :: rest => isUpperAZ c && rest.length ≤ 9 && rest.all isTickTail

/-- An entry of the `buy`/`hold`/`sell` lanes of the static `MOCK` payload. -/
structure Idea where
  ticker : String
  name : String
  thesis : String
  timeframe : String
  confidence : Int
  risk : String
  catalysts : List String
deriving DecidableEq, Repr

/-- An entry of `underTheRadar` (`whyInteresting` instead of `thesis`). -/
structure Radar where
  ticker : String
  name : String
  whyInteresting : String
  timeframe : String
  confidence : Int
  risk : String
  catalysts : List String
deriving DecidableEq, Repr

/-- The shape of a structured analysis payload, before the mock/model flags
are attached by `withMockFlag`. -/
structure PayloadCore where
  summary : String
  buy : List Idea
  hold : List Idea
  sell : List Idea
  underTheRadar : List Radar
  disclaimers : List String
deriving DecidableEq, Repr

/-- A payload after `withMockFlag` has spread in the `mock` and `model`
fields. -/
structure Flagged where
  core : PayloadCore
  mock : Bool
  model : String
deriving DecidableEq, Repr

/-- The static `MOCK` fallback payload, verbatim from the source. -/
def MOCK : PayloadCore :=
  { summary := "Mixed risk-on tone; mega-cap tech consolidating while cyclicals bid."
    buy :=
      [ { ticker := "XOM", name := "Exxon Mobil"
          thesis := "Cash flow + dividend; energy demand resilience."
          timeframe := "medium", confidence := 82, risk := "medium"
          catalysts := ["OPEC supply signals", "Refining margins"] }
      , { ticker := "AMD", name := "Advanced Micro Devices"
          thesis := "AI GPU/CPU share gains vs peers."
          timeframe := "medium", confidence := 76, risk := "medium"
          catalysts := ["MI-series uptake", "Earnings guide"] } ]
    hold :=
      [ { ticker := "NVDA", name := "NVIDIA"
          thesis := "Leader in AI, valuation rich; watch digestion."
          timeframe := "short", confidence := 74, risk := "medium"
          catalysts := ["Data center demand", "New product cadence"] } ]
    sell :=
      [ { ticker := "RIVN", name := "Rivian"
          thesis := "Cash burn + competition; path to profitability unclear."
          timeframe := "short", confidence := 70, risk := "high"
          catalysts := ["Deliveries", "Gross margin trend"] } ]
    underTheRadar :=
      [ { ticker := "INMD", name := "InMode"
          whyInteresting := "High-margin medtech with new platform cycle."
          timeframe := "medium", confidence := 65, risk := "medium"
          catalysts := ["Reg approvals", "Intl expansion"] }
      , { ticker := "ASO", name := "Academy Sports + Outdoors"
          whyInteresting := "Omnichannel retail; resilient cash flows."
          timeframe := "medium", confidence := 63, risk := "medium"
          catalysts := ["Comp sales", "New stores"] } ]
    disclaimers :=
      [ "This is not financial advice."
      , "Do your own research."
      , "Past performance is not indicative of future results."
      , "Investment involves risks, including the possible loss of principal." ] }

/-- `withMockFlag(payload, isMock, modelUsed)`: attach the mock flag and the
model name chain `modelUsed || RESOLVED_GROQ_MODEL || GROQ_MODEL || 'unknown'`
(the resolved state is `none` when unset, matching the `null` initial). -/
def withMockFlag (p : PayloadCore) (isMock : Bool) (modelUsed : String)
    (resolved : Option String) (groqModel : String) : Flagged :=
  ⟨p, isMock, jsOrS modelUsed (jsOrS (resolved.getD "") (jsOrS groqModel "unknown"))⟩

/-- `(MOCK_FALLBACK || 'true').toLowerCase() === 'true'`. -/
def mockEnabled (mockFallback : String) : Bool :=
  jsToLower (jsOrS mockFallback "true") = "true"

/-- The payload substituted by the catch blocks of `/api/screen` and
`/api/analyze`: `MOCK` with the error message spliced in front of the
summary. -/
def mockErrorPayload (msg : String) : PayloadCore :=
  { MOCK with summary := "[MOCK DATA DUE TO API ERROR]: " ++ msg ++ "\n" ++ MOCK.summary }

/-- An HTTP-level reply of a route: a JSON body or a status plus reason. -/
inductive ApiResp (α : Type) where
  | ok (body : α)
  | err (status : Nat) (msg : String)
deriving DecidableEq, Repr

/-- `POST /api/analyze`: validate the uppercased, trimmed ticker, then either
relay the completion outcome, substitute the annotated mock payload when the
fallback flag is enabled, or surface 502. `outcome` is the result of the
`groqJSON` call for this request. -/
def analyzeRoute (mockFallback : String) (resolved : Option String)
    (groqModel : String) (rawTicker : String)
    (outcome : Except String PayloadCore) : ApiResp Flagged :=
  let ticker := jsTrim (jsToUpper rawTicker)
  if !(tickerRe ticker) then
    .err 400 "Provide a valid ticker (e.g., AAPL, BRK.B)."
  else
    match outcome with
    | .ok j => .ok (withMockFlag j false "" resolved groqModel)
    | .error msg =>
      if mockEnabled mockFallback then
        .ok (withMockFlag (mockErrorPayload msg) true "" resolved groqModel)
      else .err 502 msg

/-- `POST /api/screen`: as `/api/analyze` without the ticker validation. -/
def screenRoute (mockFallback : String) (resolved : Option String)
    (groqModel : String) (outcome : Except String PayloadCore) : ApiResp Flagged :=
  match outcome with
  | .ok j => .ok (withMockFlag j false "" resolved groqModel)
  | .error msg =>
    if mockEnabled mockFallback then
      .ok (withMockFlag (mockErrorPayload msg) true "" resolved groqModel)
    else .err 502 msg

/-- Insert `x` into `l`, before the first element it compares `le` to. -/
def jsInsert {α : Type} (le : α → α → Bool) (x : α) : List α → List α
  | [] => [x]
  | y :: ys => if le x y then x :: y :: ys else y :: jsInsert le x ys

/-- A stable comparison sort, the behavior of JS `Array.prototype.sort` with
a consistent comparator (insertion sort here: an element is placed before
every later element it ties with, which is exactly stability). -/
def jsSort {α : Type} (le : α → α → Bool) : List α → List α
  | [] => []
  | x :: xs => jsInsert le x (jsSort le xs)

/-- One row of vendor data: `t` and `close` as JS numbers, `none` standing
for a non-finite value (`Number.isFinite` false). -/
structure Row where
  t : Option Int
  close : Option Int
deriving DecidableEq, Repr

/-- The `PriceSeries` shape `{ticker, series}` returned by `toSeries`. -/
structure Series where
  ticker : String
  series : List Row
deriving DecidableEq, Repr

/-- `Number.isFinite(r.close) && Number.isFinite(r.t)`. -/
def finiteRow (r : Row) : Bool := r.t.isSome && r.close.isSome

/-- The `(a, b) => a.t - b.t` sort order. The comparator returns NaN on a
non-finite timestamp, which the JS sort treats as an engine-dependent tie;
such rows are modelled as timestamp 0 here, and the claims proved below do
not depend on how they are ordered. -/
def rowLe (a b : Row) : Bool := a.t.getD 0 ≤ b.t.getD 0

/-- `toSeries(ticker, rows)`: drop non-finite rows, then sort ascending by
timestamp (filter first, then sort, as in the source). -/
def toSeries (tkr : String) (rows : List Row) : Series :=
  ⟨tkr, jsSort rowLe (rows.filter finiteRow)⟩

/-- JS `Array.prototype.slice(-n)`: the trailing `n` elements. -/
def takeRight {α : Type} (n : Nat) (xs : List α) : List α :=
  xs.drop (xs.length - n)

/-- JS `(x * 1000) | 0` on a possibly non-finite number: NaN coerces to 0,
a finite value is scaled then wrapped to signed 32 bits. -/
def mulThousandInt32 : Option Int → Int
  | none => 0
  | some n => int32 (n * 1000)

/-- `ts.map((t, i) => ({t: (t*1000)|0, close: Number(closes[i])}))`: the
element of `closes` at each index (an out-of-range index is `undefined`,
coerced to NaN, hence `none`). -/
def yahooRows : List (Option Int) → List (Option Int) → List Row
  | [], _ => []
  | t :: ts, cs => ⟨some (mulThousandInt32 t), cs.headD none⟩ :: yahooRows ts cs.tail

/-- `fetchSeriesYahoo` after the upstream JSON is in hand: build rows from
the timestamp and close arrays, slice the trailing `days`, normalize. -/
def fetchSeriesYahoo (tkr : String) (days : Nat) (ts closes : List (Option Int)) :
    Series :=
  toSeries tkr (takeRight days (yahooRows ts closes))

/-- `fetchSeriesAlphaVantage` after the upstream JSON is in hand and each
entry's date and adjusted close have been coerced to numbers: sort ascending
by timestamp, slice the trailing `days`, normalize. -/
def fetchSeriesAlphaVantage (tkr : String) (days : Nat) (rows : List Row) :
    Series :=
  toSeries tkr (takeRight days (jsSort rowLe rows))

/-- `fetchSeriesPolygon` after the upstream JSON is in hand: rows come in the
vendor's order, slice the trailing `days`, normalize. -/
def fetchSeriesPolygon (tkr : String) (days : Nat) (rows : List Row) : Series :=
  toSeries tkr (takeRight days rows)

/-- The `/api/series` cache key: the source hashes
`SERIES_PROVIDER|ticker|days` with md5; the preimage triple is the key
semantically. -/
def seriesKey (provider tkr : String) (days : Int) : String :=
  provider ++ "|" ++ tkr ++ "|" ++ toString days

/-- The two process-wide stores touched by `/api/series`. -/
structure SeriesState where
  lastHit : List (String × Int)
  cache : CacheMap Series
deriving DecidableEq, Repr

/-- `GET /api/series`: the `rateLimitMs(10000)` middleware runs first; then
the handler validates the ticker, clamps `days` to [30,365], consults the
cache, and only on a miss uses the configured provider's outcome, caching a
success and mapping a failure to 502. `outcome` is what the one provider
fetch for this request would produce. -/
def seriesRoute (st : SeriesState) (now : Int) (provider rawTicker : String)
    (rawDays : Int) (outcome : Except String Series) (ttl : Int) :
    ApiResp Series × SeriesState :=
  match rateLimitStep st.lastHit 10000 (jsToUpper rawTicker) now with
  | (false, lh) =>
    (.err 429 "Too many requests for this ticker. Try again shortly.",
     { st with lastHit := lh })
  | (true, lh) =>
    let tkr := jsToUpper rawTicker
    let days := max 30 (min 365 rawDays)
    if !(tickerRe tkr) then (.err 400 "Invalid ticker", { lastHit := lh, cache := st.cache })
    else
      let k := seriesKey provider tkr days
      match cacheGet st.cache now k with
      | (some v, c) => (.ok v, { lastHit := lh, cache := c })
      | (none, c) =>
        match outcome with
        | .ok out => (.ok out, { lastHit := lh, cache := cacheSet c now k out ttl })
        | .error _ => (.err 502 "Series provider failed", { lastHit := lh, cache := c })

/-- The ordered `PREFERRED_MODELS` list, verbatim. -/
def PREFERRED_MODELS : List String :=
  [ "llama-3.2-90b-text-preview"
  , "llama-3.2-11b-text-preview"
  , "llama-3.1-70b-instruct"
  , "llama-3.1-8b-instruct"
  , "mixtral-8x7b-32768"
  , "gemma-7b-it" ]

/-- The selection step of `resolveGroqModel` over an available-id list:
`PREFERRED_MODELS.find(id => ids.includes(id)) || ids[0]`, then
`if (!pick) throw` — an empty-string pick is falsy in JS and also fails. -/
def modelPick (prefs ids : List String) : Except String String :=
  let pick :=
    match prefs.find? (fun id => ids.contains id) with
    | some p => if p = "" then ids.head? else some p
    | none => ids.head?
  match pick with
  | some p => if p = "" then .error "No models available for this key." else .ok p
  | none => .error "No models available for this key."

/-- Modelled from the spec's words, for comparison with `modelPick`: walk the
ordered preference list, selecting the first identifier that appears in the
available set; if none is available, select the first available identifier of
any kind; if the available set is empty, fail. -/
def specModelResolution (prefs ids : List String) : Except String String :=
  match prefs with
  | [] =>
    match ids with
    | [] => .error "No models available for this key."
    | m :: _ => .ok m
  | p :: rest => if ids.contains p then .ok p else specModelResolution rest ids

/-- The reply of the completion backend to a single `chat/completions`
request: an HTTP success carrying the content string of the first choice, or
a non-success status with its raw body. -/
inductive GroqReply where
  | ok (content : String)
  | httpErr (status : Nat) (raw : String)
deriving DecidableEq, Repr

/-- The backend world seen by `groqJSON`: how it answers a request per model
id (fixed per id for the scenario under analysis), and what `GET /models`
lists. -/
structure GroqBackend where
  respond : String → GroqReply
  models : List String

/-- `lower.includes('decommissioned') || lower.includes('does not exist')`. -/
def isDecomRaw (raw : String) : Bool :=
  strContains (jsToLower raw) "decommissioned" ||
  strContains (jsToLower raw) "does not exist"

/-- `lower.includes('invalid api key') || lower.includes('unauthorized')`. -/
def isUnauthRaw (raw : String) : Bool :=
  strContains (jsToLower raw) "invalid api key" ||
  strContains (jsToLower raw) "unauthorized"

/-- The reply classifications that drive the fallback: a non-success reply is
treated as decommissioned only when it is not first claimed unauthorized. -/
def isDecomReply : GroqReply → Bool
  | .ok _ => false
  | .httpErr _ raw => !isUnauthRaw raw && isDecomRaw raw

/-- The fallback choice on a decommissioned model:
`PREFERRED_MODELS.find(id => id !== modelId && available.includes(id)) ||
available.find(id => id !== modelId)`, with a falsy (empty) result treated as
no fallback by the `if (next)` guard. -/
def nextModel (modelId : String) (available : List String) : Option String :=
  match PREFERRED_MODELS.find? (fun id => id ≠ modelId && available.contains id) with
  | some p => some p
  | none =>
    match available.find? (fun id => id ≠ modelId) with
    | some n => if n = "" then none else some n
    | none => none

/-- The outcome of a `callOnce` chain: the content string of an HTTP success
(its JSON decoding is downstream of the behavior claimed here), a thrown
error message, or exhausted fuel standing for a run that is still recursing. -/
inductive CallOut where
  | success (content : String)
  | failure (msg : String)
  | fuelOut
deriving DecidableEq, Repr

/-- `callOnce(modelId)` of `groqJSON`, with the `RESOLVED_GROQ_MODEL`
assignment threaded through and the attempted model ids logged. On a
non-success reply: unauthorized fails at once; a decommissioned
classification re-lists models, picks `nextModel`, overwrites the resolved
state and recurses; anything else fails with the truncated body. The source
recursion has no depth bound, so it is driven by `fuel` here. Returns
(outcome, final resolved state, attempted model ids in order). -/
def callOnce (be : GroqBackend) : Nat → Option String → String →
    CallOut × Option String × List String
  | 0, st, _ => (.fuelOut, st, [])
  | fuel + 1, st, m =>
    match be.respond m with
    | .ok c => (.success c, st, [m])
    | .httpErr status raw =>
      if isUnauthRaw raw then
        (.failure "Groq auth failed. Check GROQ_API_KEY and account limits.", st, [m])
      else if isDecomRaw raw then
        match nextModel m be.models with
        | some nxt =>
          let r := callOnce be fuel (some nxt) nxt
          (r.1, r.2.1, m :: r.2.2)
        | none =>
          (.failure ("Groq model '" ++ m ++
             "' is decommissioned or invalid/inaccessible. No more fallback models."),
           st, [m])
      else
        (.failure ("Groq " ++ toString status ++ ": " ++ strTake 240 raw), st, [m])

/-- One merged news item as built by `fetchOneRss`. -/
structure NewsItem where
  source : String
  title : String
  description : String
  link : String
  publishedAt : Int
  image : String
  domain : String
deriving DecidableEq, Repr

/-- The `/api/news` response body `{items}`. -/
structure NewsPayload where
  items : List NewsItem
deriving DecidableEq, Repr

/-- The filter pass of `dedupeByLink` with its `seen` set: an item is kept
only when its link is truthy (non-empty) and not seen before. -/
def dedupeGo (seen : List String) : List NewsItem → List NewsItem
  | [] => []
  | i :: rest =>
    if i.link ≠ "" && !(seen.contains i.link) then i :: dedupeGo (i.link :: seen) rest
    else dedupeGo seen rest

/-- `dedupeByLink(items)`. -/
def dedupeByLink (items : List NewsItem) : List NewsItem := dedupeGo [] items

/-- The `(a, b) => b.publishedAt - a.publishedAt` descending sort order. -/
def newsGe (a b : NewsItem) : Bool := b.publishedAt ≤ a.publishedAt

/-- The query filter: case-insensitive substring match against title,
description, source or domain (`q` is already lowercased). -/
def matchesQ (q : String) (n : NewsItem) : Bool :=
  strContains (jsToLower n.title) q || strContains (jsToLower n.description) q ||
  strContains (jsToLower n.source) q || strContains (jsToLower n.domain) q

/-- `Promise.allSettled(...).flatMap(r => r.status === 'fulfilled' ? r.value
: [])`: each source's fetch outcome contributes its items when fulfilled and
nothing when rejected. -/
def fulfilled : List (Except String (List NewsItem)) → List NewsItem
  | [] => []
  | .ok v :: rest => v ++ fulfilled rest
  | .error _ :: rest => fulfilled rest

/-- The aggregation pipeline of `/api/news` on a cache miss: merge the
fulfilled sources, dedupe by link, sort by recency, filter by the query when
present, truncate to `limit`. -/
def newsMerge (q : String) (limit : Nat)
    (fetches : List (Except String (List NewsItem))) : List NewsItem :=
  let news := jsSort newsGe (dedupeByLink (fulfilled fetches))
  let filtered := if q = "" then news else news.filter (matchesQ q)
  filtered.take limit

/-- The `/api/news` cache key, `JSON.stringify({limit, q})` semantically. -/
def newsKey (limit : Int) (q : String) : String := toString limit ++ "|" ++ q

/-- `GET /api/news`: clamp `limit` to [6,50], normalize `q`, serve from the
cache when fresh, else aggregate and cache. Source failures are absorbed by
`allSettled`, so the aggregation path always responds successfully; the
route's 502 catch guards only throws outside the fetches. `fetches` lists
each configured source's outcome for this request. -/
def newsRoute (cache : CacheMap NewsPayload) (now : Int) (rawLimit : Int)
    (rawQ : String) (fetches : List (Except String (List NewsItem)))
    (ttl : Int) : ApiResp NewsPayload × CacheMap NewsPayload :=
  let limit := max 6 (min 50 rawLimit)
  let q := jsTrim (jsToLower rawQ)
  let k := newsKey limit q
  match cacheGet cache now k with
  | (some v, c) => (.ok v, c)
  | (none, c) =>
    let payload : NewsPayload := ⟨newsMerge q limit.toNat fetches⟩
    (.ok payload, cacheSet c now k payload ttl)

theorem alookup_aset {α : Type} (m : List (String × α)) (k : String) (v : α) :
    alookup (aset m k v) k = some v := by
  simp [aset, alookup]

theorem alookup_aerase {α : Type} (m : List (String × α)) (k : String) :
    alookup (aerase m k) k = none := by
  induction m with
  | nil => rfl
  | cons hd tl ih =>
    unfold aerase at ih ⊢
    rw [List.filter_cons]
    by_cases h : hd.1 = k
    · rw [show (decide (hd.1 ≠ k)) = false by simp [h]]
      exact ih
    · rw [show (decide (hd.1 ≠ k)) = true by simp [h]]
      simp only [alookup]
      rw [if_neg h]
      exact ih

/-- C5: a `get` immediately after `set(k, v, ttl)` with positive ttl returns
`v`; once the clock is beyond the entry's expiry, `get` returns absent and
removes the stale entry from the underlying map. -/
theorem cache_ttl_roundtrip_and_eviction {α : Type} (c : CacheMap α)
    (k : String) (v : α) (ttl now t : Int) (httl : 0 < ttl)
    (ht : now + ttl * 1000 < t) :
    (cacheGet (cacheSet c now k v ttl) now k).1 = some v ∧
    (cacheGet (cacheSet c now k v ttl) t k).1 = none ∧
    alookup ((cacheGet (cacheSet c now k v ttl) t k).2) k = none := by
  have hl : alookup (cacheSet c now k v ttl) k = some (now + ttl * 1000, v) :=
    alookup_aset ..
  refine ⟨?_, ?_, ?_⟩
  · simp only [cacheGet, hl]
    have : ¬ now > now + ttl * 1000 := by omega
    simp [this]
  · simp only [cacheGet, hl]
    have : now + ttl * 1000 < t := ht
    simp [this]
  · simp only [cacheGet, hl]
    have : now + ttl * 1000 < t := ht
    simp only [this, gt_iff_lt, if_pos]
    exact alookup_aerase ..

theorem cache_ttl_roundtrip_and_eviction_witness :
    (cacheGet (cacheSet ([] : CacheMap Nat) 0 "k" 7 900) 0 "k").1 = some 7 ∧
    (cacheGet (cacheSet ([] : CacheMap Nat) 0 "k" 7 900) 900001 "k").1 = none ∧
    alookup ((cacheGet (cacheSet ([] : CacheMap Nat) 0 "k" 7 900) 900001 "k").2) "k" = none :=
  cache_ttl_roundtrip_and_eviction [] "k" 7 900 0 900001 (by decide) (by decide)

/-- C6: after an accepted pass for a non-empty normalized ticker, a second
pass within the interval is rejected and leaves the recorded last-hit map
untouched, while a pass at or after the interval is accepted and records the
new time; accepted passes are therefore at least the interval apart. -/
theorem rate_limiter_min_interval (lh : List (String × Int)) (ms t1 t2 : Int)
    (tkr : String) (hne : tkr ≠ "")
    (hacc : (rateLimitStep lh ms tkr t1).1 = true) :
    (t2 - t1 < ms →
       rateLimitStep (rateLimitStep lh ms tkr t1).2 ms tkr t2 =
         (false, (rateLimitStep lh ms tkr t1).2)) ∧
    (ms ≤ t2 - t1 →
       (rateLimitStep (rateLimitStep lh ms tkr t1).2 ms tkr t2).1 = true ∧
       alookup (rateLimitStep (rateLimitStep lh ms tkr t1).2 ms tkr t2).2 tkr =
         some t2) := by
  have hstep : (rateLimitStep lh ms tkr t1).2 = aset lh tkr t1 := by
    unfold rateLimitStep at hacc ⊢
    split at hacc
    · exact absurd hacc (by simp)
    · rename_i h
      rw [if_neg h]
  have hprev : alookup (aset lh tkr t1) tkr = some t1 := alookup_aset ..
  constructor
  · intro hlt
    rw [hstep]
    unfold rateLimitStep
    simp [hprev, hne, hlt]
  · intro hge
    rw [hstep]
    unfold rateLimitStep
    have : ¬ t2 - t1 < ms := by omega
    simp [hprev, hne, this, alookup_aset]

theorem rate_limiter_min_interval_witness :
    (rateLimitStep (rateLimitStep [] 10000 "AAPL" 20000).2 10000 "AAPL" 25000 =
       (false, (rateLimitStep [] 10000 "AAPL" 20000).2)) ∧
    ((rateLimitStep (rateLimitStep [] 10000 "AAPL" 20000).2 10000 "AAPL" 31000).1 = true ∧
     alookup (rateLimitStep (rateLimitStep [] 10000 "AAPL" 20000).2 10000 "AAPL" 31000).2
       "AAPL" = some 31000) :=
  ⟨(rate_limiter_min_interval [] 10000 20000 25000 "AAPL" (by decide) (by decide)).1
     (by decide),
   (rate_limiter_min_interval [] 10000 20000 31000 "AAPL" (by decide) (by decide)).2
     (by decide)⟩

theorem mockErrorPayload_summary_ne (msg : String) :
    (mockErrorPayload msg).summary ≠ "" := by
  intro h
  have h2 := congrArg String.length h
  simp only [mockErrorPayload, MOCK] at h2
  rw [String.length_append, String.length_append, String.length_append] at h2
  rw [show ("[MOCK DATA DUE TO API ERROR]: " : String).length = 30 from rfl] at h2
  rw [show ("\n" : String).length = 1 from rfl] at h2
  rw [show ("" : String).length = 0 from rfl] at h2
  omega

/-- C1: when the completion call behind `POST /api/analyze` or
`POST /api/screen` fails and the fallback flag is enabled, the response is
the static mock payload (summary annotated, hence non-empty) with its mock
flag set true; whereas a provider failure behind `GET /api/series` (on a
cache miss, past the limiter and validation) surfaces as a 502 error
response, never a fabricated series. -/
theorem completion_fallback_vs_series_error (mf : String) (res : Option String)
    (gm rawT msg : String) (st : SeriesState) (now : Int)
    (prov rawTkr : String) (rawDays : Int) (e : String) (ttl : Int)
    (hmf : mockEnabled mf = true)
    (hT : tickerRe (jsTrim (jsToUpper rawT)) = true)
    (hacc : (rateLimitStep st.lastHit 10000 (jsToUpper rawTkr) now).1 = true)
    (hval : tickerRe (jsToUpper rawTkr) = true)
    (hmiss : (cacheGet st.cache now
       (seriesKey prov (jsToUpper rawTkr) (max 30 (min 365 rawDays)))).1 = none) :
    (∃ p, analyzeRoute mf res gm rawT (.error msg) = .ok p ∧ p.mock = true ∧
       p.core.summary ≠ "" ∧ p.core.buy = MOCK.buy ∧ p.core.hold = MOCK.hold ∧
       p.core.sell = MOCK.sell ∧ p.core.underTheRadar = MOCK.underTheRadar ∧
       p.core.disclaimers = MOCK.disclaimers) ∧
    (∃ p, screenRoute mf res gm (.error msg) = .ok p ∧ p.mock = true ∧
       p.core.summary ≠ "" ∧ p.core.buy = MOCK.buy) ∧
    (seriesRoute st now prov rawTkr rawDays (.error e) ttl).1 =
      .err 502 "Series provider failed" := by
  refine ⟨?_, ?_, ?_⟩
  · refine ⟨withMockFlag (mockErrorPayload msg) true "" res gm, ?_, rfl, ?_, rfl, rfl, rfl, rfl, rfl⟩
    · simp [analyzeRoute, hT, hmf]
    · exact mockErrorPayload_summary_ne msg
  · refine ⟨withMockFlag (mockErrorPayload msg) true "" res gm, ?_, rfl, ?_, rfl⟩
    · simp [screenRoute, hmf]
    · exact mockErrorPayload_summary_ne msg
  · have hrl : rateLimitStep st.lastHit 10000 (jsToUpper rawTkr) now =
        (true, aset st.lastHit (jsToUpper rawTkr) now) := by
      unfold rateLimitStep at hacc ⊢
      split at hacc
      · exact absurd hacc (by simp)
      · rename_i h
        rw [if_neg h]
    obtain ⟨c2, hcg⟩ : ∃ c2, cacheGet st.cache now
        (seriesKey prov (jsToUpper rawTkr) (max 30 (min 365 rawDays))) = (none, c2) := by
      rcases hh : cacheGet st.cache now
          (seriesKey prov (jsToUpper rawTkr) (max 30 (min 365 rawDays))) with ⟨o, c⟩
      rw [hh] at hmiss
      simp only at hmiss
      exact ⟨c, by rw [hmiss]⟩
    simp [seriesRoute, hrl, hcg, hval]

theorem completion_fallback_vs_series_error_witness :
    (∃ p, analyzeRoute "true" none "" "aapl" (.error "boom") = .ok p ∧
       p.mock = true ∧ p.core.summary ≠ "" ∧ p.core.buy = MOCK.buy ∧
       p.core.hold = MOCK.hold ∧ p.core.sell = MOCK.sell ∧
       p.core.underTheRadar = MOCK.underTheRadar ∧
       p.core.disclaimers = MOCK.disclaimers) ∧
    (∃ p, screenRoute "true" none "" (.error "boom") = .ok p ∧ p.mock = true ∧
       p.core.summary ≠ "" ∧ p.core.buy = MOCK.buy) ∧
    (seriesRoute ⟨[], []⟩ 20000 "alphavantage" "NVDA" 180
       (.error "Missing ALPHAVANTAGE_API_KEY") 900).1 =
      .err 502 "Series provider failed" :=
  completion_fallback_vs_series_error "true" none "" "aapl" "boom" ⟨[], []⟩
    20000 "alphavantage" "NVDA" 180 "Missing ALPHAVANTAGE_API_KEY" 900
    (by decide) (by decide) (by decide) (by decide) (by decide)

/-- C3 counterexample: a `/api/series` request whose cache key holds a fresh
entry is nevertheless rejected 429 when it arrives within the rate-limit
interval, because the `rateLimitMs` middleware runs before the cache lookup:
here the entry for (yahoo, AAPL, 180) is fresh at clock 5000 (expires at
1000000), the previous hit for AAPL was at 0, and the response is 429, not
the cached value. -/
theorem series_cache_hit_still_rate_limited :
    (cacheGet [(seriesKey "yahoo" "AAPL" 180,
        (1000000, Series.mk "AAPL" [⟨some 1000, some 100⟩]))] 5000
      (seriesKey "yahoo" "AAPL" 180)).1 =
      some (Series.mk "AAPL" [⟨some 1000, some 100⟩]) ∧
    (seriesRoute
        ⟨[("AAPL", 0)],
         [(seriesKey "yahoo" "AAPL" 180,
           (1000000, Series.mk "AAPL" [⟨some 1000, some 100⟩]))]⟩
        5000 "yahoo" "AAPL" 180
        (.ok (Series.mk "AAPL" [⟨some 1000, some 100⟩])) 900).1 =
      .err 429 "Too many requests for this ticker. Try again shortly." := by
  constructor <;> rfl

/-- C3 amended: rate limiting is applied before the cache lookup, so a
cache-served request can be rejected 429; when the limiter accepts the
request and the ticker is valid, a fresh cache entry is returned unchanged,
with no dependence on the provider outcome. -/
theorem series_cache_hit_after_limiter (st : SeriesState) (now : Int)
    (prov rawTkr : String) (rawDays : Int) (v : Series) (ttl : Int)
    (hacc : (rateLimitStep st.lastHit 10000 (jsToUpper rawTkr) now).1 = true)
    (hval : tickerRe (jsToUpper rawTkr) = true)
    (hhit : (cacheGet st.cache now
       (seriesKey prov (jsToUpper rawTkr) (max 30 (min 365 rawDays)))).1 = some v) :
    ∀ outcome : Except String Series,
      (seriesRoute st now prov rawTkr rawDays outcome ttl).1 = .ok v := by
  intro outcome
  have hrl : rateLimitStep st.lastHit 10000 (jsToUpper rawTkr) now =
      (true, aset st.lastHit (jsToUpper rawTkr) now) := by
    unfold rateLimitStep at hacc ⊢
    split at hacc
    · exact absurd hacc (by simp)
    · rename_i h
      rw [if_neg h]
  obtain ⟨c2, hcg⟩ : ∃ c2, cacheGet st.cache now
      (seriesKey prov (jsToUpper rawTkr) (max 30 (min 365 rawDays))) = (some v, c2) := by
    rcases hh : cacheGet st.cache now
        (seriesKey prov (jsToUpper rawTkr) (max 30 (min 365 rawDays))) with ⟨o, c⟩
    rw [hh] at hhit
    simp only at hhit
    exact ⟨c, by rw [hhit]⟩
  simp [seriesRoute, hrl, hcg, hval]

theorem series_cache_hit_after_limiter_witness :
    (seriesRoute
        ⟨[], [(seriesKey "yahoo" "AAPL" 180,
               (1000000, Series.mk "AAPL" [⟨some 1000, some 100⟩]))]⟩
        20000 "yahoo" "AAPL" 180 (.error "provider down") 900).1 =
      .ok (Series.mk "AAPL" [⟨some 1000, some 100⟩]) :=
  series_cache_hit_after_limiter
    ⟨[], [(seriesKey "yahoo" "AAPL" 180,
           (1000000, Series.mk "AAPL" [⟨some 1000, some 100⟩]))]⟩
    20000 "yahoo" "AAPL" 180 (Series.mk "AAPL" [⟨some 1000, some 100⟩]) 900
    (by decide) (by decide) (by decide) (.error "provider down")

theorem fulfilled_append (a b : List (Except String (List NewsItem))) :
    fulfilled (a ++ b) = fulfilled a ++ fulfilled b := by
  induction a with
  | nil => rfl
  | cons hd tl ih =>
    cases hd with
    | ok v => simp [fulfilled, ih]
    | error s => simp [fulfilled, ih]

theorem newsMerge_congr (q : String) (limit : Nat)
    (f g : List (Except String (List NewsItem)))
    (h : fulfilled f = fulfilled g) : newsMerge q limit f = newsMerge q limit g := by
  unfold newsMerge
  rw [h]

/-- C4 counterexample: with every configured source failing (three sources,
all rejected), a cache-missing `GET /api/news` responds successfully with an
empty item list — `Promise.allSettled` absorbs the rejections, so the 502
branch is not reached. -/
theorem news_all_sources_failed_is_success :
    (newsRoute [] 0 18 "" [.error "a", .error "b", .error "c"] 300).1 =
      .ok ⟨[]⟩ := by
  rfl

/-- C4 amended: a failing source is simply dropped from the merge — deleting
it from the fetch list does not change the response at all — and when every
source fails the route still responds successfully, with an empty item list,
instead of a 502 error. -/
theorem news_partial_failure_tolerance (cache : CacheMap NewsPayload)
    (now rl : Int) (rq : String) (fs1 fs2 : List (Except String (List NewsItem)))
    (e : String) (ttl : Int) (fetches : List (Except String (List NewsItem)))
    (hall : ∀ f ∈ fetches, ∃ s, f = .error s)
    (hmiss : (cacheGet cache now
       (newsKey (max 6 (min 50 rl)) (jsTrim (jsToLower rq)))).1 = none) :
    newsRoute cache now rl rq (fs1 ++ .error e :: fs2) ttl =
      newsRoute cache now rl rq (fs1 ++ fs2) ttl ∧
    (newsRoute cache now rl rq fetches ttl).1 = .ok ⟨[]⟩ := by
  constructor
  · have hm : newsMerge (jsTrim (jsToLower rq)) (max 6 (min 50 rl)).toNat
        (fs1 ++ .error e :: fs2) =
        newsMerge (jsTrim (jsToLower rq)) (max 6 (min 50 rl)).toNat (fs1 ++ fs2) := by
      apply newsMerge_congr
      rw [fulfilled_append, fulfilled_append]
      simp [fulfilled]
    simp only [newsRoute]
    rw [hm]
  · have hful : fulfilled fetches = [] := by
      induction fetches with
      | nil => rfl
      | cons hd tl ih =>
        obtain ⟨s, hs⟩ := hall hd (by simp)
        subst hs
        exact ih (fun f hf => hall f (by simp [hf]))
    have hm : newsMerge (jsTrim (jsToLower rq)) (max 6 (min 50 rl)).toNat fetches = [] := by
      unfold newsMerge
      rw [hful]
      simp [dedupeByLink, dedupeGo, jsSort]
    obtain ⟨c2, hcg⟩ : ∃ c2, cacheGet cache now
        (newsKey (max 6 (min 50 rl)) (jsTrim (jsToLower rq))) = (none, c2) := by
      rcases hh : cacheGet cache now
          (newsKey (max 6 (min 50 rl)) (jsTrim (jsToLower rq))) with ⟨o, c⟩
      rw [hh] at hmiss
      simp only at hmiss
      exact ⟨c, by rw [hmiss]⟩
    simp [newsRoute, hcg, hm]

theorem news_partial_failure_tolerance_witness :
    (newsRoute [] 0 18 "" ([.ok []] ++ .error "down" :: []) 300 =
       newsRoute [] 0 18 "" ([.ok []] ++ []) 300) ∧
    (newsRoute [] 0 18 "" [.error "down"] 300).1 = .ok ⟨[]⟩ :=
  news_partial_failure_tolerance [] 0 18 "" [.ok []] [] "down" 300 [.error "down"]
    (by intro f hf; exact ⟨"down", by simpa using hf⟩) (by decide)

theorem jsInsert_perm {α : Type} (le : α → α → Bool) (x : α) (l : List α) :
    (jsInsert le x l).Perm (x :: l) := by
  induction l with
  | nil => exact List.Perm.refl _
  | cons y ys ih =>
    unfold jsInsert
    by_cases h : le x y = true
    · rw [if_pos h]
    · rw [if_neg h]
      exact (ih.cons y).trans (List.Perm.swap x y ys)

theorem jsSort_perm {α : Type} (le : α → α → Bool) (l : List α) :
    (jsSort le l).Perm l := by
  induction l with
  | nil => exact List.Perm.refl _
  | cons x xs ih =>
    unfold jsSort
    exact (jsInsert_perm le x (jsSort le xs)).trans (ih.cons x)

theorem mem_jsSort {α : Type} {le : α → α → Bool} {a : α} {l : List α} :
    a ∈ jsSort le l ↔ a ∈ l :=
  (jsSort_perm le l).mem_iff

theorem length_jsSort {α : Type} (le : α → α → Bool) (l : List α) :
    (jsSort le l).length = l.length :=
  (jsSort_perm le l).length_eq

theorem pairwise_jsInsert {α : Type} {le : α → α → Bool}
    (htrans : ∀ a b c, le a b = true → le b c = true → le a c = true)
    (htot : ∀ a b, le a b = true ∨ le b a = true) (x : α) (l : List α)
    (hl : l.Pairwise (fun a b => le a b = true)) :
    (jsInsert le x l).Pairwise (fun a b => le a b = true) := by
  induction l with
  | nil => simp [jsInsert]
  | cons y ys ih =>
    rcases List.pairwise_cons.mp hl with ⟨hy, hys⟩
    unfold jsInsert
    by_cases h : le x y = true
    · rw [if_pos h]
      refine List.pairwise_cons.mpr ⟨?_, hl⟩
      intro b hb
      rcases List.mem_cons.mp hb with rfl | hb2
      · exact h
      · exact htrans x y b h (hy b hb2)
    · rw [if_neg h]
      have hyx : le y x = true := (htot x y).resolve_left h
      refine List.pairwise_cons.mpr ⟨?_, ih hys⟩
      intro b hb
      rcases List.mem_cons.mp ((jsInsert_perm le x ys).mem_iff.mp hb) with rfl | hb2
      · exact hyx
      · exact hy b hb2

theorem pairwise_jsSort {α : Type} {le : α → α → Bool}
    (htrans : ∀ a b c, le a b = true → le b c = true → le a c = true)
    (htot : ∀ a b, le a b = true ∨ le b a = true) (l : List α) :
    (jsSort le l).Pairwise (fun a b => le a b = true) := by
  induction l with
  | nil => simp [jsSort]
  | cons x xs ih => exact pairwise_jsInsert htrans htot x _ ih

theorem dedupeGo_links (seen : List String) (l : List NewsItem) :
    ∀ i ∈ dedupeGo seen l, i.link ≠ "" := by
  induction l generalizing seen with
  | nil => intro i hi; simp [dedupeGo] at hi
  | cons hd tl ih =>
    intro i hi
    unfold dedupeGo at hi
    by_cases h : (hd.link ≠ "" && !(seen.contains hd.link)) = true
    · rw [if_pos h] at hi
      rcases List.mem_cons.mp hi with rfl | hi2
      · simp only [Bool.and_eq_true, decide_eq_true_eq] at h
        exact h.1
      · exact ih _ i hi2
    · rw [if_neg h] at hi
      exact ih seen i hi

/-- C10: every item of a successful (cache-missing) `GET /api/news` response
has a non-empty link — `dedupeByLink` drops any parsed item whose link is
empty before the merge, and the later sort, filter and truncation only ever
remove items. -/
theorem news_items_nonempty_link (cache : CacheMap NewsPayload) (now rl : Int)
    (rq : String) (fetches : List (Except String (List NewsItem))) (ttl : Int)
    (p : NewsPayload)
    (hmiss : (cacheGet cache now
       (newsKey (max 6 (min 50 rl)) (jsTrim (jsToLower rq)))).1 = none)
    (hp : (newsRoute cache now rl rq fetches ttl).1 = .ok p) :
    ∀ i ∈ p.items, i.link ≠ "" := by
  obtain ⟨c2, hcg⟩ : ∃ c2, cacheGet cache now
      (newsKey (max 6 (min 50 rl)) (jsTrim (jsToLower rq))) = (none, c2) := by
    rcases hh : cacheGet cache now
        (newsKey (max 6 (min 50 rl)) (jsTrim (jsToLower rq))) with ⟨o, c⟩
    rw [hh] at hmiss
    simp only at hmiss
    exact ⟨c, by rw [hmiss]⟩
  have hp2 : p = ⟨newsMerge (jsTrim (jsToLower rq)) (max 6 (min 50 rl)).toNat fetches⟩ := by
    simp [newsRoute, hcg] at hp
    exact hp.symm
  subst hp2
  intro i hi
  simp only [newsMerge] at hi
  have hi1 := List.take_subset _ _ hi
  have hi2 : i ∈ jsSort newsGe (dedupeByLink (fulfilled fetches)) := by
    by_cases hq : jsTrim (jsToLower rq) = ""
    · simpa [hq] using hi1
    · rw [if_neg hq] at hi1
      exact (List.mem_filter.mp hi1).1
  exact dedupeGo_links [] _ i (mem_jsSort.mp hi2)

theorem news_items_nonempty_link_witness :
    (NewsItem.mk "CNBC Markets" "Markets rally" "Stocks rose."
        "https://cnbc.test/a" 5 "/news-placeholder.png" "cnbc.test").link ≠ "" :=
  news_items_nonempty_link [] 0 18 ""
    [.ok [⟨"CNBC Markets", "Markets rally", "Stocks rose.",
          "https://cnbc.test/a", 5, "/news-placeholder.png", "cnbc.test"⟩]] 300
    (NewsPayload.mk
        [⟨"CNBC Markets", "Markets rally", "Stocks rose.",
          "https://cnbc.test/a", 5, "/news-placeholder.png", "cnbc.test"⟩])
    (by decide) (by rfl)
    (NewsItem.mk "CNBC Markets" "Markets rally" "Stocks rose."
        "https://cnbc.test/a" 5 "/news-placeholder.png" "cnbc.test")
    (by decide)

theorem rowLe_trans : ∀ a b c : Row, rowLe a b = true → rowLe b c = true →
    rowLe a c = true := by
  intro a b c h1 h2
  simp only [rowLe, decide_eq_true_eq] at h1 h2 ⊢
  omega

theorem rowLe_total : ∀ a b : Row, rowLe a b = true ∨ rowLe b a = true := by
  intro a b
  simp only [rowLe, decide_eq_true_eq]
  omega

theorem toSeries_sorted_finite (tkr : String) (rows : List Row) :
    (toSeries tkr rows).series.Pairwise (fun a b => a.t.getD 0 ≤ b.t.getD 0) ∧
    ∀ r ∈ (toSeries tkr rows).series, r.t.isSome = true ∧ r.close.isSome = true := by
  constructor
  · have h := pairwise_jsSort rowLe_trans rowLe_total (rows.filter finiteRow)
    refine h.imp ?_
    intro a b hab
    simpa [rowLe] using hab
  · intro r hr
    have hm : r ∈ rows.filter finiteRow := mem_jsSort.mp hr
    have h2 := (List.mem_filter.mp hm).2
    simp only [finiteRow, Bool.and_eq_true] at h2
    exact h2

/-- C7: for each vendor variant, every point of the returned series has a
finite timestamp and close (non-finite rows are filtered out by `toSeries`
before the series is returned or cached) and the series is sorted
non-decreasing by timestamp, whatever order the vendor's native data
arrives in. -/
theorem series_points_sorted_and_finite (tkr : String) (days : Nat)
    (ts closes : List (Option Int)) (avRows polyRows : List Row) :
    ((fetchSeriesYahoo tkr days ts closes).series.Pairwise
        (fun a b => a.t.getD 0 ≤ b.t.getD 0) ∧
     ∀ r ∈ (fetchSeriesYahoo tkr days ts closes).series,
       r.t.isSome = true ∧ r.close.isSome = true) ∧
    ((fetchSeriesAlphaVantage tkr days avRows).series.Pairwise
        (fun a b => a.t.getD 0 ≤ b.t.getD 0) ∧
     ∀ r ∈ (fetchSeriesAlphaVantage tkr days avRows).series,
       r.t.isSome = true ∧ r.close.isSome = true) ∧
    ((fetchSeriesPolygon tkr days polyRows).series.Pairwise
        (fun a b => a.t.getD 0 ≤ b.t.getD 0) ∧
     ∀ r ∈ (fetchSeriesPolygon tkr days polyRows).series,
       r.t.isSome = true ∧ r.close.isSome = true) :=
  ⟨toSeries_sorted_finite tkr _, toSeries_sorted_finite tkr _,
   toSeries_sorted_finite tkr _⟩

theorem takeRight_length {α : Type} (n : Nat) (xs : List α) :
    (takeRight n xs).length = min n xs.length := by
  unfold takeRight
  rw [List.length_drop]
  omega

theorem toSeries_length_le (tkr : String) (rows : List Row) :
    (toSeries tkr rows).series.length ≤ rows.length := by
  unfold toSeries
  simp only
  rw [length_jsSort]
  exact List.length_filter_le ..

/-- C9 counterexample: `fetchSeriesYahoo` slices the trailing `days` raw
rows before the finiteness filter, so with 31 upstream rows whose last close
is non-finite and `days = 30` (within the clamped range), the returned
series has 29 points, although the trailing 30 points of the normalized
(filtered) data would be 30 — the series does not contain exactly the
trailing `days` points of the vendor's normalized data. -/
theorem series_truncation_not_exact :
    (fetchSeriesYahoo "A" 30
        ((List.range 31).map (fun i => some (i : Int)))
        ((List.range 30).map (fun _ => some (100 : Int)) ++ [none])).series.length
      = 29 ∧
    (toSeries "A" (yahooRows
        ((List.range 31).map (fun i => some (i : Int)))
        ((List.range 30).map (fun _ => some (100 : Int)) ++ [none]))).series.length
      = 30 := by
  constructor <;> rfl

/-- C9 amended: each vendor truncates to at most the trailing `days` rows —
the truncation happens on the raw (Yahoo, Polygon) or date-sorted
(AlphaVantage) rows before the finiteness filter, so the result has at most
`days` points, and exactly `min days rows.length` when every row involved is
finite. -/
theorem series_truncation_at_most_days (tkr : String) (days : Nat)
    (ts closes : List (Option Int)) (avRows polyRows rows : List Row)
    (hfin : ∀ r ∈ rows, finiteRow r = true) :
    (fetchSeriesYahoo tkr days ts closes).series.length ≤ days ∧
    (fetchSeriesAlphaVantage tkr days avRows).series.length ≤ days ∧
    (fetchSeriesPolygon tkr days polyRows).series.length ≤ days ∧
    (toSeries tkr (takeRight days rows)).series.length = min days rows.length := by
  have hle : ∀ l : List Row, (toSeries tkr (takeRight days l)).series.length ≤ days := by
    intro l
    calc (toSeries tkr (takeRight days l)).series.length
        ≤ (takeRight days l).length := toSeries_length_le ..
      _ ≤ days := by rw [takeRight_length]; omega
  refine ⟨hle _, hle _, hle _, ?_⟩
  have hall : List.filter finiteRow (takeRight days rows) = takeRight days rows :=
    List.filter_eq_self.mpr (fun a ha => hfin a (List.drop_subset _ _ ha))
  unfold toSeries
  simp only
  rw [length_jsSort, hall, takeRight_length]

theorem series_truncation_at_most_days_witness :
    (fetchSeriesYahoo "AAPL" 30 [some 1, some 2] [some 5, some 6]).series.length ≤ 30 ∧
    (fetchSeriesAlphaVantage "AAPL" 30 [⟨some 1, some 5⟩]).series.length ≤ 30 ∧
    (fetchSeriesPolygon "AAPL" 30 [⟨some 1, some 5⟩]).series.length ≤ 30 ∧
    (toSeries "AAPL" (takeRight 30 [⟨some 1, some 5⟩])).series.length =
      min 30 [(⟨some 1, some 5⟩ : Row)].length :=
  series_truncation_at_most_days "AAPL" 30 [some 1, some 2] [some 5, some 6]
    [⟨some 1, some 5⟩] [⟨some 1, some 5⟩] [⟨some 1, some 5⟩]
    (by intro r hr; simp at hr; subst hr; rfl)

/-- C2 counterexample: with a backend that classifies every model as
decommissioned and lists two models, the fallback recursion keeps retrying —
five requests are attempted under fuel 5 (alternating between the two ids),
so a second decommissioned failure is retried again rather than surfaced:
the attempted-request count exceeds two. -/
theorem completion_retry_unbounded :
    (callOnce
        ⟨fun _ => .httpErr 404 "The model has been decommissioned", ["m1", "m2"]⟩
        5 none "m1").2.2 = ["m1", "m2", "m1", "m2", "m1"] ∧
    2 < (callOnce
        ⟨fun _ => .httpErr 404 "The model has been decommissioned", ["m1", "m2"]⟩
        5 none "m1").2.2.length :=
  ⟨rfl, by decide⟩

/-- C2 amended: on a decommissioned-classified failure with another
identifier available, exactly one retried request is made with the first
preferred-or-any identifier different from the failed one, and the resolved
state is overwritten to it; the retry's success is returned, and a second
failure NOT itself classified as decommissioned is surfaced without further
retries (a second decommissioned-classified failure recurses instead, as the
counterexample shows). -/
theorem completion_single_retry_cases (be : GroqBackend) (m1 m2 : String)
    (fuel : Nat) (st : Option String)
    (hdec : isDecomReply (be.respond m1) = true)
    (hnext : nextModel m1 be.models = some m2) :
    (∀ c, be.respond m2 = .ok c →
       callOnce be (fuel + 2) st m1 = (.success c, some m2, [m1, m2])) ∧
    (∀ status raw, be.respond m2 = .httpErr status raw → isDecomRaw raw = false →
       ∃ msg, callOnce be (fuel + 2) st m1 = (.failure msg, some m2, [m1, m2])) := by
  rcases hr1 : be.respond m1 with c1 | ⟨s1, raw1⟩
  · rw [hr1] at hdec
    simp [isDecomReply] at hdec
  · rw [hr1] at hdec
    simp only [isDecomReply, Bool.and_eq_true, Bool.not_eq_true'] at hdec
    obtain ⟨hnu, hd⟩ := hdec
    constructor
    · intro c hc
      simp [callOnce, hr1, hnu, hd, hnext, hc]
    · intro status raw hc2 hd2
      by_cases hu2 : isUnauthRaw raw = true
      · exact ⟨"Groq auth failed. Check GROQ_API_KEY and account limits.",
          by simp [callOnce, hr1, hnu, hd, hnext, hc2, hu2]⟩
      · exact ⟨"Groq " ++ toString status ++ ": " ++ strTake 240 raw,
          by simp [callOnce, hr1, hnu, hd, hnext, hc2, hu2, hd2]⟩

theorem completion_single_retry_cases_witness :
    callOnce
        ⟨fun m => if m = "m1" then .httpErr 404 "model decommissioned"
                  else .ok "A", ["m1", "m2"]⟩ 2 none "m1" =
      (.success "A", some "m2", ["m1", "m2"]) :=
  (completion_single_retry_cases
      ⟨fun m => if m = "m1" then .httpErr 404 "model decommissioned"
                else .ok "A", ["m1", "m2"]⟩
      "m1" "m2" 0 none (by decide) (by decide)).1 "A" (by decide)

/-- C8: the `resolveGroqModel` pick agrees with the spec's resolution
algorithm — first preferred identifier present in the available set, else
the first available identifier, error on an empty set — whenever no
identifier is the (JS-falsy) empty string; in particular the spec's two
examples hold, and an empty available set always fails. -/
theorem model_resolution_characterization :
    (∀ prefs ids : List String, "" ∉ prefs → "" ∉ ids →
       modelPick prefs ids = specModelResolution prefs ids) ∧
    modelPick ["x", "b", "a"] ["a", "b", "c"] = .ok "b" ∧
    modelPick ["x", "b", "a"] ["z"] = .ok "z" ∧
    ∀ prefs : List String,
      modelPick prefs [] = .error "No models available for this key." := by
  refine ⟨?_, by rfl, by rfl, ?_⟩
  · intro prefs
    induction prefs with
    | nil =>
      intro ids _ hi
      cases ids with
      | nil => rfl
      | cons m ms =>
        have hm : ¬ m = "" := fun h => hi (by rw [← h]; exact List.mem_cons_self ..)
        simp [modelPick, specModelResolution, hm]
    | cons p rest ih =>
      intro ids hp hi
      have hp2 : "" ∉ rest := fun h => hp (List.mem_cons_of_mem _ h)
      have hpne : ¬ p = "" := fun h => hp (by rw [← h]; exact List.mem_cons_self ..)
      by_cases hc : ids.contains p = true
      · have hfind : List.find? (fun id => ids.contains id) (p :: rest) = some p :=
          List.find?_cons_of_pos _ hc
        unfold modelPick specModelResolution
        rw [hfind, if_pos hc]
        simp [hpne]
      · have hfind : List.find? (fun id => ids.contains id) (p :: rest) =
            List.find? (fun id => ids.contains id) rest :=
          List.find?_cons_of_neg _ (by simpa using hc)
        have heq := ih ids hp2 hi
        unfold modelPick at heq ⊢
        rw [hfind]
        unfold specModelResolution
        rw [if_neg hc]
        exact heq
  · intro prefs
    have hf : List.find? (fun id => List.contains ([] : List String) id) prefs = none := by
      rw [List.find?_eq_none]
      intro x _
      simp
    unfold modelPick
    rw [hf]
    rfl

theorem model_resolution_characterization_witness :
    modelPick PREFERRED_MODELS ["gemma-7b-it", "other-model"] =
      specModelResolution PREFERRED_MODELS ["gemma-7b-it", "other-model"] :=
  model_resolution_characterization.1 PREFERRED_MODELS
    ["gemma-7b-it", "other-model"] (by decide) (by decide)
